import Mathlib

/-!
Shallow embedding of `src/analytics_project/etl_to_dw.py` (key-lime-pie-store
ETL pipeline) together with theorems settling the specification claims.

Tables are modelled as Lean lists of rows; pandas DataFrame cells are strings
(`astype(str)` makes every cell a string before the operations modelled here),
numeric cells are parsed into `Option ℚ` mirroring `pd.to_numeric(errors="coerce")`
(`none` plays the role of NaN).  String helpers mirror pandas `str.strip` /
`str.lower` on the ASCII range used by the data.
-/

namespace EtlToDw

/-! ### String helpers (pandas `str.strip` / `str.lower`) -/

/-- `str.strip()`: drop whitespace on both ends. -/
def strTrim (s : String) : String :=
  ⟨((s.data.dropWhile Char.isWhitespace).reverse.dropWhile Char.isWhitespace).reverse⟩

/-- `str.lower()` (ASCII range, which covers all header names in the data). -/
def strLower (s : String) : String :=
  ⟨s.data.map Char.toLower⟩

/-- Numeric value of a list of decimal digit characters (`int("0071") = 71`). -/
def natOfDigits (l : List Char) : Nat :=
  l.foldl (fun n c => 10 * n + (c.toNat - 48)) 0

/-! ### Key extractor: `.str.extract(r"[Cc](\d+)", expand=False).astype("Int64")`

`Series.str.extract` uses `re.search` semantics: the regex is matched at the
first position where the (upper or lower case) marker letter is immediately
followed by a digit, and the greedy `\d+` captures the maximal digit run there.
Values without any such occurrence yield `NaN` (here `none`). -/

/-- Is the head of the list a decimal digit? -/
def headIsDigit : List Char → Bool
  | [] => false
  | d :: _ => d.isDigit

/-- `re.search(r"<pu|pl>(\d+)", chars)` returning the captured digits as a `Nat`. -/
def searchPD (pu pl : Char) : List Char → Option Nat
  | [] => none
  | c :: rest =>
    if (c == pu || c == pl) && headIsDigit rest then
      some (natOfDigits (rest.takeWhile Char.isDigit))
    else
      searchPD pu pl rest

/-- The per-cell key extractor: `astype(str).str.strip().str.extract(r"[Xx](\d+)")`
followed by `astype("Int64")` on the captured digits. -/
def extractKey (pu pl : Char) (s : String) : Option Nat :=
  searchPD pu pl (strTrim s).data

/-! ### `drop_dupes` (pandas `drop_duplicates(subset=[key], keep="first")`) -/

/-- Worker: drop rows whose key was already seen (keeping first occurrences). -/
def dropDupesAux {α : Type} (key : α → Nat) (seen : List Nat) : List α → List α
  | [] => []
  | x :: xs =>
    if key x ∈ seen then dropDupesAux key seen xs
    else x :: dropDupesAux key (key x :: seen) xs

/-- `drop_dupes(df, key)`: drop duplicate rows based on a key column, keeping
the first occurrence of each key. -/
def drop_dupes {α : Type} (key : α → Nat) (df : List α) : List α :=
  dropDupesAux key [] df

/-! ### Column (header) normalization

The header-level behaviour of `norm_customers` / `norm_products` / `norm_sales`:
header strip+lower (customers and sales only — `norm_products` performs no such
step), `df.rename(columns=...)` as a finite lookup map, and the selection of the
required canonical columns, which raises a `KeyError` naming the missing
columns when one is absent. -/

/-- `df.columns.str.strip().str.lower()`. -/
def normalize_headers (cols : List String) : List String :=
  cols.map (fun c => strLower (strTrim c))

/-- `df.rename(columns=m)`: rename each header through the finite map `m`. -/
def rename_headers (m : List (String × String)) (cols : List String) : List String :=
  cols.map (fun c => ((m.lookup c).getD c))

/-- The canonical columns of `required` absent from `cols`. -/
def missing_of (required cols : List String) : List String :=
  required.filter (fun c => !(cols.contains c))

/-- `df[required]`: selecting the required columns keeps exactly them (dropping
all others silently) and raises an error naming the missing ones otherwise.
This also models the explicit `raise KeyError(...)` check of `norm_sales`. -/
def select_required (required cols : List String) : Except (List String) (List String) :=
  if (missing_of required cols).isEmpty then .ok required
  else .error (missing_of required cols)

def customersHeaderMap : List (String × String) :=
  [("customersegmentid", "customer_segmentid"), ("customersegment", "customer_segment")]

def customersRequired : List String := ["customer_segmentid", "customer_segment"]

def productsHeaderMap : List (String × String) :=
  [("productid", "product_id"), ("productvariant", "product_variant")]

def productsRequired : List String := ["product_id", "product_variant"]

def salesHeaderMap : List (String × String) :=
  [("transactionid", "sales_id"), ("customersegmentid", "customer_segmentid"),
   ("productid", "product_id"), ("date", "sale_date"), ("unitssold", "units_sold"),
   ("revenue", "sale_amount"), ("profitmargin", "profit_margin")]

def salesRequired : List String :=
  ["sales_id", "customer_segmentid", "product_id", "units_sold", "sale_date",
   "sale_amount", "profit_margin"]

/-- Header stage of `norm_customers`: strip+lower, rename, select. -/
def norm_customers_cols (cols : List String) : Except (List String) (List String) :=
  select_required customersRequired (rename_headers customersHeaderMap (normalize_headers cols))

/-- Header stage of `norm_products`: rename, select.  NOTE: faithful to the
source, `norm_products` does *not* strip or lower-case its headers. -/
def norm_products_cols (cols : List String) : Except (List String) (List String) :=
  select_required productsRequired (rename_headers productsHeaderMap cols)

/-- Header stage of `norm_sales`: strip+lower, rename, explicit missing-column
check (`raise KeyError`), select. -/
def norm_sales_cols (cols : List String) : Except (List String) (List String) :=
  select_required salesRequired (rename_headers salesHeaderMap (normalize_headers cols))

/-! ### Data stage of `norm_customers` / `norm_products`

Input rows are the two selected columns (code cell, name cell); the code cell
goes through `astype(str).str.strip().str.extract(...).astype("Int64")`, rows
with a missing extracted key are dropped (`dropna`), then `drop_dupes`. -/

/-- Extracted key of a customer row (`[Cc](\d+)` on the code cell). -/
def custKeyOf (r : String × String) : Option Nat := extractKey 'C' 'c' r.1

/-- A customer row after extraction and `dropna(subset=["customer_segmentid"])`. -/
def custRowFn (r : String × String) : Option (Nat × String) :=
  match custKeyOf r with
  | some k => some (k, r.2)
  | none => none

/-- `norm_customers` (data stage): extract keys, drop rows with missing keys,
drop duplicate keys keeping the first occurrence. -/
def norm_customers (df : List (String × String)) : List (Nat × String) :=
  drop_dupes Prod.fst (df.filterMap custRowFn)

/-- Extracted key of a product row (`[Pp](\d+)` on the code cell). -/
def prodKeyOf (r : String × String) : Option Nat := extractKey 'P' 'p' r.1

/-- A product row after extraction and `dropna(subset=["product_id"])`. -/
def prodRowFn (r : String × String) : Option (Nat × String) :=
  match prodKeyOf r with
  | some k => some (k, r.2)
  | none => none

/-- `norm_products` (data stage). -/
def norm_products (df : List (String × String)) : List (Nat × String) :=
  drop_dupes Prod.fst (df.filterMap prodRowFn)

/-! ### `norm_sales` data stage

`pd.to_numeric(errors="coerce")` is modelled by a parser for optionally signed
decimal literals into `Option ℚ` (`none` = NaN); the subsequent
`astype("Int64")` of the `sales_id` column raises when some parsed value is not
an integer (pandas refuses the unsafe float→Int64 cast), which is the error
case of `norm_sales`. -/

/-- Unsigned decimal literal (digits, optional point and fraction digits),
returned as a numerator/denominator pair. -/
def parseUnsignedPair (l : List Char) : Option (Nat × Nat) :=
  let ip := l.takeWhile Char.isDigit
  match l.drop ip.length with
  | [] => if ip.isEmpty then none else some (natOfDigits ip, 1)
  | '.' :: fp =>
    if fp.all Char.isDigit && !(ip.isEmpty && fp.isEmpty) then
      some (natOfDigits ip * 10 ^ fp.length + natOfDigits fp, 10 ^ fp.length)
    else none
  | _ => none

/-- `pd.to_numeric(x, errors="coerce")` on a string cell. -/
def toNumericQ (s : String) : Option ℚ :=
  match (strTrim s).data with
  | '-' :: rest => (parseUnsignedPair rest).map (fun p => mkRat (-(p.1 : Int)) p.2)
  | '+' :: rest => (parseUnsignedPair rest).map (fun p => mkRat p.1 p.2)
  | l => (parseUnsignedPair l).map (fun p => mkRat p.1 p.2)

/-- A raw sales row after column selection (all cells as strings, in the
order of the `required` list of `norm_sales`). -/
structure RawSale where
  transactionid : String
  customersegmentid : String
  productid : String
  unitssold : String
  date : String
  revenue : String
  profitmargin : String
deriving DecidableEq

/-- A sales row after the per-column coercions of `norm_sales`. -/
structure ParsedSale where
  sales_id : Option Int
  customer_segmentid : Option Nat
  product_id : Option Nat
  units_sold : Option ℚ
  sale_date : String
  sale_amount : Option ℚ
  profit_margin : Option ℚ
deriving DecidableEq

/-- A loaded sales row (after `dropna` and the `sales_id` reassignment). -/
structure SaleRow where
  sales_id : Nat
  customer_segmentid : Nat
  product_id : Nat
  units_sold : Option ℚ
  sale_date : String
  sale_amount : ℚ
  profit_margin : Option ℚ
deriving DecidableEq

/-- The column coercions of `norm_sales` applied to one row. -/
def parseSale (r : RawSale) : ParsedSale where
  sales_id := (toNumericQ r.transactionid).bind
    (fun q => if q.den = 1 then some q.num else none)
  customer_segmentid := extractKey 'C' 'c' r.customersegmentid
  product_id := extractKey 'P' 'p' r.productid
  units_sold := toNumericQ r.unitssold
  sale_date := r.date
  sale_amount := toNumericQ r.revenue
  profit_margin := toNumericQ r.profitmargin

/-- `astype("Int64")` on the `sales_id` column raises when some value parsed by
`to_numeric` is a non-integral float (an unsafe cast). -/
def badCastSales (df : List RawSale) : Bool :=
  df.any (fun r =>
    match toNumericQ r.transactionid with
    | some q => decide (q.den ≠ 1)
    | none => false)

/-- Keep the row (`dropna(subset=["customer_segmentid", "product_id",
"sale_amount"])`). -/
def keepSale (p : ParsedSale) : Bool :=
  p.customer_segmentid.isSome && p.product_id.isSome && p.sale_amount.isSome

/-- Rows surviving `dropna`, paired with their original pandas index
(`read_csv` gives the range index 0..n-1, which `dropna` does not reset). -/
def keptParsed (df : List RawSale) : List (Nat × ParsedSale) :=
  ((df.map parseSale).enum).filter (fun ip => keepSale ip.2)

/-- The reset condition of `norm_sales`:
`df["sales_id"].isna().any() or df["sales_id"].duplicated().any()`. -/
def salesNeedsReset (df : List RawSale) : Bool :=
  ((keptParsed df).map (fun ip => ip.2.sales_id)).any Option.isNone ||
    !(decide (((keptParsed df).filterMap (fun ip => ip.2.sales_id)).Nodup))

/-- Materialize a loaded row from its (possibly reset) index:
`df["sales_id"] = (df.index + 1).astype("Int64")`. -/
def mkSaleRow (sid : Nat) (p : ParsedSale) : SaleRow where
  sales_id := sid
  customer_segmentid := p.customer_segmentid.getD 0
  product_id := p.product_id.getD 0
  units_sold := p.units_sold
  sale_date := p.sale_date
  sale_amount := p.sale_amount.getD 0
  profit_margin := p.profit_margin

/-- `norm_sales` (data stage): coerce columns, drop rows with missing critical
values, reset the index if `sales_id` has missing or duplicated values, then
unconditionally assign `sales_id = index + 1`. -/
def norm_sales (df : List RawSale) : Except String (List SaleRow) :=
  if badCastSales df then
    .error "cannot safely cast non-equivalent float64 to Int64"
  else
    .ok ((if salesNeedsReset df then ((keptParsed df).map Prod.snd).enum
          else keptParsed df).map (fun ip => mkSaleRow (ip.1 + 1) ip.2))

/-! ### Date dimension

`generate_date_dimension` parses its bounds with
`datetime.strptime(s, "%Y-%m-%d")` (exactly four year digits, 1–2 month and day
digits, calendar-validated, year ≥ 1) and builds `pd.date_range(start, end,
freq="D")`: one row per day from `start` while ≤ `end` (empty when
`end < start`), raising `OutOfBoundsDatetime` when a bound falls outside the
`pd.Timestamp` day range 1677-09-22 .. 2262-04-11. -/

structure Date where
  year : Nat
  month : Nat
  day : Nat
deriving DecidableEq

/-- Gregorian leap year. -/
def isLeap (y : Nat) : Bool :=
  (y % 4 == 0 && y % 100 != 0) || y % 400 == 0

/-- Number of days of month `m` of year `y`. -/
def daysInMonth (y m : Nat) : Nat :=
  if m = 2 then (if isLeap y then 29 else 28)
  else if m = 4 ∨ m = 6 ∨ m = 9 ∨ m = 11 then 30
  else 31

/-- Days in the months `1..m-1` of a common year. -/
def daysBeforeMonthCommon : Nat → Nat
  | 1 => 0 | 2 => 31 | 3 => 59 | 4 => 90 | 5 => 120 | 6 => 151
  | 7 => 181 | 8 => 212 | 9 => 243 | 10 => 273 | 11 => 304 | 12 => 334
  | _ => 0

/-- Days in the months `1..m-1` of year `y`. -/
def daysBeforeMonth (y m : Nat) : Nat :=
  daysBeforeMonthCommon m + (if 3 ≤ m ∧ isLeap y then 1 else 0)

/-- Days in the years `1..y-1` (proleptic Gregorian). -/
def daysBeforeYear (y : Nat) : Nat :=
  365 * (y - 1) + (y - 1) / 4 - (y - 1) / 100 + (y - 1) / 400

/-- Day number of a date: days elapsed since 0001-01-01. -/
def toDayNo (d : Date) : Nat :=
  daysBeforeYear d.year + daysBeforeMonth d.year d.month + (d.day - 1)

/-- Calendar validity of a date. -/
def Date.Valid (d : Date) : Prop :=
  1 ≤ d.year ∧ 1 ≤ d.month ∧ d.month ≤ 12 ∧ 1 ≤ d.day ∧ d.day ≤ daysInMonth d.year d.month

instance (d : Date) : Decidable d.Valid := by
  unfold Date.Valid; infer_instance

/-- The calendar day after `d`. -/
def nextDay (d : Date) : Date :=
  if d.day < daysInMonth d.year d.month then ⟨d.year, d.month, d.day + 1⟩
  else if d.month < 12 then ⟨d.year, d.month + 1, 1⟩
  else ⟨d.year + 1, 1, 1⟩

/-- `n` consecutive days starting at `a`. -/
def dateListN (a : Date) : Nat → List Date
  | 0 => []
  | n + 1 => a :: dateListN (nextDay a) n

/-- `pd.date_range(start=a, end=b, freq="D")`: the days `a..b` inclusive
(empty when `b` is before `a`). -/
def date_range (a b : Date) : List Date :=
  dateListN a (toDayNo b + 1 - toDayNo a)

/-- Split a character list on a separator (the structural analogue of
`str.split`). -/
def splitOnChar (sep : Char) : List Char → List (List Char)
  | [] => [[]]
  | c :: rest =>
    if c = sep then [] :: splitOnChar sep rest
    else
      match splitOnChar sep rest with
      | [] => [[c]]
      | g :: gs => (c :: g) :: gs

/-- `datetime.strptime(s, "%Y-%m-%d")`: exactly 4 year digits, 1–2 month and
day digits with calendar validation, year ≥ 1, nothing else in the string. -/
def parseDateYMD (s : String) : Option Date :=
  match splitOnChar '-' s.data with
  | [ys, ms, ds] =>
    if ys.length = 4 && ys.all Char.isDigit &&
       (1 ≤ ms.length && ms.length ≤ 2) && ms.all Char.isDigit &&
       (1 ≤ ds.length && ds.length ≤ 2) && ds.all Char.isDigit then
      let d : Date := ⟨natOfDigits ys, natOfDigits ms, natOfDigits ds⟩
      if d.Valid then some d else none
    else none
  | _ => none

/-- First day representable by `pd.Timestamp` (at midnight): 1677-09-22. -/
def tsMinDN : Nat := toDayNo ⟨1677, 9, 22⟩

/-- Last day representable by `pd.Timestamp` (at midnight): 2262-04-11. -/
def tsMaxDN : Nat := toDayNo ⟨2262, 4, 11⟩

/-- ISO-8601 weekday, 1 = Monday (0001-01-01 proleptic Gregorian is a Monday). -/
def isoWeekday (d : Date) : Nat := toDayNo d % 7 + 1

/-- Helper for the 53-week-year rule. -/
def isoP (y : Nat) : Nat := (y + y / 4 - y / 100 + y / 400) % 7

/-- Number of ISO weeks of year `y` (52 or 53). -/
def weeksInISOYear (y : Nat) : Nat :=
  52 + (if isoP y = 4 ∨ isoP (y - 1) = 3 then 1 else 0)

/-- ISO-8601 week number (`DatetimeIndex.isocalendar().week`). -/
def isoWeek (d : Date) : Nat :=
  let doy := toDayNo d - daysBeforeYear d.year + 1
  let w := (doy + 10 - isoWeekday d) / 7
  if w = 0 then weeksInISOYear (d.year - 1)
  else if weeksInISOYear d.year < w then 1
  else w

/-- `"%B"`. -/
def monthName : Nat → String
  | 1 => "January" | 2 => "February" | 3 => "March" | 4 => "April"
  | 5 => "May" | 6 => "June" | 7 => "July" | 8 => "August"
  | 9 => "September" | 10 => "October" | 11 => "November" | 12 => "December"
  | _ => ""

/-- Zero-pad to two digits (`"%m"`, `"%d"`). -/
def pad2 (n : Nat) : String :=
  if n < 10 then "0" ++ toString n else toString n

/-- Zero-pad to four digits (`"%Y"`). -/
def pad4 (n : Nat) : String :=
  if n < 10 then "000" ++ toString n
  else if n < 100 then "00" ++ toString n
  else if n < 1000 then "0" ++ toString n
  else toString n

/-- One row of the date dimension frame. -/
structure DateRow where
  date_id : Nat
  full_date : String
  year : Nat
  month : Nat
  month_name : String
  day : Nat
  week : Nat
deriving DecidableEq

/-- Build the dimension row of a day: `date_id` is `strftime("%Y%m%d")` as an
integer, `full_date` is `strftime("%m/%d/%Y")`. -/
def mkDateRow (d : Date) : DateRow where
  date_id := d.year * 10000 + d.month * 100 + d.day
  full_date := pad2 d.month ++ "/" ++ pad2 d.day ++ "/" ++ pad4 d.year
  year := d.year
  month := d.month
  month_name := monthName d.month
  day := d.day
  week := isoWeek d

/-- `generate_date_dimension(start_date, end_date)`. -/
def generate_date_dimension (start_date end_date : String) :
    Except String (List DateRow) :=
  match parseDateYMD start_date, parseDateYMD end_date with
  | some s, some e =>
    if tsMinDN ≤ toDayNo s ∧ toDayNo s ≤ tsMaxDN ∧
       tsMinDN ≤ toDayNo e ∧ toDayNo e ≤ tsMaxDN then
      .ok ((date_range s e).map mkDateRow)
    else .error "OutOfBoundsDatetime"
  | _, _ => .error "ValueError: does not match format %Y-%m-%d"

/-! ### Schema, loaders and orchestrator

The SQLite store is modelled by the row lists of its four tables.  `DROP TABLE
IF EXISTS` + `CREATE TABLE IF NOT EXISTS` leaves every table existing and
empty; `DELETE FROM t` empties `t`; `to_sql(..., if_exists="append")` appends
rows. -/

structure DB where
  dim_date : List DateRow
  customer : List (Nat × String)
  product : List (Nat × String)
  sales : List SaleRow
deriving DecidableEq

/-- `create_schema`: drop all four tables in FK-safe order, then recreate
them — afterwards all four tables exist and are empty. -/
def create_schema (_db : DB) : DB :=
  { dim_date := [], customer := [], product := [], sales := [] }

/-- `delete_existing_records`: `DELETE FROM` each table in FK-safe order. -/
def delete_existing_records (db : DB) : DB :=
  { db with sales := [], product := [], customer := [], dim_date := [] }

/-- `insert_dim_date`: append the frame to `dim_date`. -/
def insert_dim_date (df : List DateRow) (db : DB) : DB :=
  { db with dim_date := db.dim_date ++ df }

/-- `insert_customers`: append the frame to `customer`. -/
def insert_customers (df : List (Nat × String)) (db : DB) : DB :=
  { db with customer := db.customer ++ df }

/-- `insert_products`: append the frame to `product`. -/
def insert_products (df : List (Nat × String)) (db : DB) : DB :=
  { db with product := db.product ++ df }

/-- The referential filter of `insert_sales`: keep rows whose
`customer_segmentid` is a fetched customer key, then rows whose `product_id`
is a fetched product key. -/
def fkFilter (validC validP : List Nat) (df : List SaleRow) : List SaleRow :=
  (df.filter (fun r => decide (r.customer_segmentid ∈ validC))).filter
    (fun r => decide (r.product_id ∈ validP))

/-- `insert_sales`: fetch the dimension key sets, filter the frame by them,
and append it to `sales` when non-empty (otherwise only warn). -/
def insert_sales (df : List SaleRow) (db : DB) : DB :=
  if 0 < (fkFilter (db.customer.map Prod.fst) (db.product.map Prod.fst) df).length then
    { db with sales :=
        db.sales ++ fkFilter (db.customer.map Prod.fst) (db.product.map Prod.fst) df }
  else db

/-- `load_data_to_db(truncate)`: recreate the schema, optionally delete rows,
generate and insert the fixed 2022-01-01..2026-01-01 date dimension, then
normalize and insert customers, products and sales in order.  The three input
frames stand for the three prepared CSV files. -/
def load_data_to_db (truncate : Bool) (custFile prodFile : List (String × String))
    (salesFile : List RawSale) (db : DB) : Except String DB :=
  let db0 := create_schema db
  let db1 := if truncate then delete_existing_records db0 else db0
  match generate_date_dimension "2022-01-01" "2026-01-01" with
  | .error e => .error e
  | .ok dim =>
    let db2 := insert_dim_date dim db1
    let db3 := insert_customers (norm_customers custFile) db2
    let db4 := insert_products (norm_products prodFile) db3
    match norm_sales salesFile with
    | .error e => .error e
    | .ok sdf => .ok (insert_sales sdf db4)

/-! ### Lemmas about `drop_dupes` -/

theorem dropDupesAux_sublist {α : Type} (key : α → Nat) (seen : List Nat) (l : List α) :
    List.Sublist (dropDupesAux key seen l) l := by
  induction l generalizing seen with
  | nil => simp [dropDupesAux]
  | cons x xs ih =>
    unfold dropDupesAux
    by_cases h : key x ∈ seen
    · rw [if_pos h]; exact (ih seen).cons x
    · rw [if_neg h]; exact (ih _).cons₂ x

theorem drop_dupes_sublist {α : Type} (key : α → Nat) (df : List α) :
    List.Sublist (drop_dupes key df) df :=
  dropDupesAux_sublist key [] df

theorem dropDupesAux_not_seen {α : Type} (key : α → Nat) (seen : List Nat) (l : List α) :
    ∀ y ∈ dropDupesAux key seen l, key y ∉ seen := by
  induction l generalizing seen with
  | nil => simp [dropDupesAux]
  | cons x xs ih =>
    unfold dropDupesAux
    by_cases h : key x ∈ seen
    · rw [if_pos h]; exact ih seen
    · rw [if_neg h]
      intro y hy
      rcases List.mem_cons.1 hy with rfl | hy
      · exact h
      · have := ih (key x :: seen) y hy
        exact fun hc => this (List.mem_cons_of_mem _ hc)

theorem dropDupesAux_nodup_keys {α : Type} (key : α → Nat) (seen : List Nat) (l : List α) :
    ((dropDupesAux key seen l).map key).Nodup := by
  induction l generalizing seen with
  | nil => simp [dropDupesAux]
  | cons x xs ih =>
    unfold dropDupesAux
    by_cases h : key x ∈ seen
    · rw [if_pos h]; exact ih seen
    · rw [if_neg h]
      simp only [List.map_cons, List.nodup_cons]
      refine ⟨?_, ih _⟩
      intro hc
      rcases List.mem_map.1 hc with ⟨y, hy, hk⟩
      exact dropDupesAux_not_seen key _ xs y hy (hk ▸ List.mem_cons_self _ _)

theorem drop_dupes_nodup_keys {α : Type} (key : α → Nat) (df : List α) :
    ((drop_dupes key df).map key).Nodup :=
  dropDupesAux_nodup_keys key [] df

/-- Every retained row is the first row of the input bearing its key. -/
theorem dropDupesAux_find? {α : Type} (key : α → Nat) (seen : List Nat) (l : List α) :
    ∀ x ∈ dropDupesAux key seen l, l.find? (fun y => key y == key x) = some x := by
  induction l generalizing seen with
  | nil => simp [dropDupesAux]
  | cons z zs ih =>
    unfold dropDupesAux
    by_cases h : key z ∈ seen
    · rw [if_pos h]
      intro x hx
      have hne : key z ≠ key x := by
        intro he
        exact dropDupesAux_not_seen key seen zs x hx (he ▸ h)
      rw [List.find?_cons_of_neg _ (by simpa using hne)]
      exact ih seen x hx
    · rw [if_neg h]
      intro x hx
      rcases List.mem_cons.1 hx with rfl | hx
      · rw [List.find?_cons_of_pos _ (by simp)]
      · have hns := dropDupesAux_not_seen key _ zs x hx
        have hne : key z ≠ key x := by
          intro he
          exact hns (he ▸ List.mem_cons_self _ _)
        rw [List.find?_cons_of_neg _ (by simpa using hne)]
        exact ih _ x hx

theorem drop_dupes_find? {α : Type} (key : α → Nat) (df : List α) :
    ∀ x ∈ drop_dupes key df, df.find? (fun y => key y == key x) = some x :=
  dropDupesAux_find? key [] df

/-- Transport a first-occurrence fact through `filterMap`. -/
theorem find?_filterMap_nat {α β : Type} (f : α → Option β) (keyB : β → Nat)
    (l : List α) (k : Nat) (x : β)
    (h : (l.filterMap f).find? (fun b => keyB b == k) = some x) :
    ∃ a, l.find? (fun a => (f a).map keyB == some k) = some a ∧ f a = some x := by
  induction l with
  | nil => simp [List.filterMap] at h
  | cons a l ih =>
    cases hfa : f a with
    | none =>
      rw [List.filterMap_cons_none hfa] at h
      rcases ih h with ⟨a', ha', hfa'⟩
      refine ⟨a', ?_, hfa'⟩
      rw [List.find?_cons_of_neg _ (by simp [hfa])]
      exact ha'
    | some b =>
      rw [List.filterMap_cons_some hfa] at h
      by_cases hb : keyB b = k
      · rw [List.find?_cons_of_pos _ (by simpa using hb)] at h
        refine ⟨a, ?_, by rw [hfa]; exact congrArg some (Option.some_injective _ h.symm ▸ rfl)⟩
        rw [List.find?_cons_of_pos _ (by simp [hfa, hb])]
      · rw [List.find?_cons_of_neg _ (by simpa using hb)] at h
        rcases ih h with ⟨a', ha', hfa'⟩
        refine ⟨a', ?_, hfa'⟩
        rw [List.find?_cons_of_neg _ (by simp [hfa, hb])]
        exact ha'

/-! ### Lemmas about the key extractor -/

/-- A value that fully matches `^<marker><digits>$` yields the digits. -/
theorem searchPD_fullmatch (pu pl : Char) (c : Char) (ds : List Char)
    (hc : c = pu ∨ c = pl) (hne : ds ≠ []) (hdig : ∀ d ∈ ds, d.isDigit = true) :
    searchPD pu pl (c :: ds) = some (natOfDigits ds) := by
  have htw : ds.takeWhile Char.isDigit = ds := List.takeWhile_eq_self_iff.mpr hdig
  unfold searchPD
  rw [if_pos, htw]
  cases ds with
  | nil => exact absurd rfl hne
  | cons d t =>
    simp only [headIsDigit, Bool.and_eq_true, Bool.or_eq_true, beq_iff_eq]
    exact ⟨hc, hdig d (List.mem_cons_self _ _)⟩

/-- The extractor yields `NaN` exactly when no marker-followed-by-digit
occurrence exists anywhere in the value. -/
theorem searchPD_eq_none_iff (pu pl : Char) (l : List Char) :
    searchPD pu pl l = none ↔
      ¬ ∃ l1 c d l2, l = l1 ++ c :: d :: l2 ∧ (c = pu ∨ c = pl) ∧ d.isDigit = true := by
  induction l with
  | nil => simp [searchPD]
  | cons c0 rest ih =>
    unfold searchPD
    by_cases hcond : ((c0 == pu || c0 == pl) && headIsDigit rest) = true
    · rw [if_pos hcond]
      simp only [Bool.and_eq_true, Bool.or_eq_true, beq_iff_eq] at hcond
      obtain ⟨hc, hd⟩ := hcond
      cases rest with
      | nil => simp [headIsDigit] at hd
      | cons d t =>
        simp only [headIsDigit] at hd
        refine iff_of_false (by simp) ?_
        intro h
        exact h ⟨[], c0, d, t, by simp, hc, hd⟩
    · rw [if_neg hcond]
      rw [ih]
      constructor
      · intro h hex
        rcases hex with ⟨l1, c, d, l2, heq, hcd, hdig⟩
        cases l1 with
        | nil =>
          simp only [List.nil_append, List.cons.injEq] at heq
          obtain ⟨rfl, rfl⟩ := heq
          apply hcond
          simp only [headIsDigit, Bool.and_eq_true, Bool.or_eq_true, beq_iff_eq]
          exact ⟨hcd, hdig⟩
        | cons a l1' =>
          simp only [List.cons_append, List.cons.injEq] at heq
          obtain ⟨rfl, hr⟩ := heq
          exact h ⟨l1', c, d, l2, hr, hcd, hdig⟩
      · intro h hex
        rcases hex with ⟨l1, c, d, l2, heq, hcd, hdig⟩
        exact h ⟨c0 :: l1, c, d, l2, by simp [heq], hcd, hdig⟩

/-! ### Lemmas about header normalization -/

theorem missing_of_eq_nil (required cols : List String)
    (h : ∀ r ∈ required, r ∈ cols) :
    missing_of required cols = [] := by
  unfold missing_of
  rw [List.filter_eq_nil_iff]
  intro a ha
  simpa using h a ha

theorem select_required_ok (required cols : List String)
    (h : ∀ r ∈ required, r ∈ cols) :
    select_required required cols = .ok required := by
  unfold select_required
  rw [if_pos (by rw [List.isEmpty_iff]; exact missing_of_eq_nil required cols h)]

theorem select_required_error (required cols m : List String)
    (h : select_required required cols = .error m) :
    m = missing_of required cols ∧ m ≠ [] ∧ ∀ r ∈ m, r ∈ required ∧ r ∉ cols := by
  unfold select_required at h
  by_cases he : (missing_of required cols).isEmpty = true
  · rw [if_pos he] at h; exact absurd h (by simp)
  · rw [if_neg he] at h
    have hm : m = missing_of required cols := (Except.error.injEq _ _).mp h.symm
    refine ⟨hm, ?_, ?_⟩
    · rw [hm]; intro hc; rw [hc] at he; exact he rfl
    · intro r hr
      rw [hm] at hr
      unfold missing_of at hr
      have := List.mem_filter.1 hr
      refine ⟨this.1, fun hc => ?_⟩
      have h2 := this.2
      simp only [Bool.not_eq_eq_eq_not, Bool.not_true] at h2
      have h3 : cols.contains r = true := List.elem_eq_true_of_mem hc
      rw [h3] at h2
      cases h2

/-! ### Calendar lemmas -/

theorem isLeap_iff (y : Nat) :
    isLeap y = true ↔ ((y % 4 = 0 ∧ y % 100 ≠ 0) ∨ y % 400 = 0) := by
  simp [isLeap]

theorem daysInMonth_pos (y m : Nat) : 1 ≤ daysInMonth y m := by
  unfold daysInMonth
  split
  · split <;> omega
  · split <;> omega

theorem daysInMonth_le_31 (y m : Nat) : daysInMonth y m ≤ 31 := by
  unfold daysInMonth
  split
  · split <;> omega
  · split <;> omega

set_option maxHeartbeats 1000000 in
theorem daysBeforeYear_succ (y : Nat) (hy : 1 ≤ y) :
    daysBeforeYear (y + 1) = daysBeforeYear y + 365 + (if isLeap y then 1 else 0) := by
  by_cases hl : isLeap y = true
  · rw [if_pos hl]
    rw [isLeap_iff] at hl
    unfold daysBeforeYear
    simp only [Nat.add_sub_cancel]
    omega
  · rw [if_neg hl]
    rw [isLeap_iff] at hl
    push_neg at hl
    unfold daysBeforeYear
    simp only [Nat.add_sub_cancel]
    omega

theorem daysBeforeYear_mono {a b : Nat} (ha : 1 ≤ a) (hab : a ≤ b) :
    daysBeforeYear a ≤ daysBeforeYear b := by
  induction b, hab using Nat.le_induction with
  | base => exact Nat.le_refl _
  | succ n hn ih =>
    have h1 : 1 ≤ n := Nat.le_trans ha hn
    calc daysBeforeYear a ≤ daysBeforeYear n := ih
    _ ≤ _ := by rw [daysBeforeYear_succ n h1]; split <;> omega

theorem daysBeforeMonth_succ (y m : Nat) (h1 : 1 ≤ m) (h2 : m ≤ 11) :
    daysBeforeMonth y (m + 1) = daysBeforeMonth y m + daysInMonth y m := by
  interval_cases m <;>
    by_cases hl : isLeap y = true <;>
      simp [daysBeforeMonth, daysBeforeMonthCommon, daysInMonth, hl]

set_option maxHeartbeats 1000000 in
theorem month_day_bound_aux (y m day : Nat) (hm1 : 1 ≤ m) (hm2 : m ≤ 12)
    (hd2 : day ≤ daysInMonth y m) :
    daysBeforeMonth y m + (day - 1) ≤ 364 + (if isLeap y then 1 else 0) := by
  interval_cases m <;>
    by_cases hl : isLeap y = true <;>
      simp only [daysBeforeMonth, daysBeforeMonthCommon, daysInMonth, hl,
        if_true, if_false, Bool.false_eq_true] at hd2 ⊢ <;>
      norm_num at hd2 ⊢ <;> omega

theorem month_day_bound (d : Date) (hv : d.Valid) :
    daysBeforeMonth d.year d.month + (d.day - 1) ≤ 364 + (if isLeap d.year then 1 else 0) := by
  obtain ⟨_, hm1, hm2, hd1, hd2⟩ := hv
  exact month_day_bound_aux d.year d.month d.day hm1 hm2 hd2

theorem daysBeforeMonth_one (y : Nat) : daysBeforeMonth y 1 = 0 := by
  simp [daysBeforeMonth, daysBeforeMonthCommon]

theorem toDayNo_nextDay (d : Date) (hv : d.Valid) :
    toDayNo (nextDay d) = toDayNo d + 1 := by
  obtain ⟨hy, hm1, hm2, hd1, hd2⟩ := hv
  unfold nextDay
  by_cases h1 : d.day < daysInMonth d.year d.month
  · rw [if_pos h1]
    simp only [toDayNo]
    omega
  · rw [if_neg h1]
    have hde : d.day = daysInMonth d.year d.month := Nat.le_antisymm hd2 (Nat.le_of_not_lt h1)
    by_cases h2 : d.month < 12
    · rw [if_pos h2]
      simp only [toDayNo]
      rw [daysBeforeMonth_succ d.year d.month hm1 (by omega)]
      omega
    · rw [if_neg h2]
      have hm12 : d.month = 12 := by omega
      have hd31 : d.day = 31 := by
        rw [hde, hm12]; simp [daysInMonth]
      simp only [toDayNo]
      rw [daysBeforeYear_succ d.year hy, hm12, hd31, daysBeforeMonth_one]
      have h334 : daysBeforeMonth d.year 12 = 334 + (if isLeap d.year then 1 else 0) := by
        simp [daysBeforeMonth, daysBeforeMonthCommon]
      rw [h334]
      omega

theorem nextDay_valid (d : Date) (hv : d.Valid) : (nextDay d).Valid := by
  obtain ⟨hy, hm1, hm2, hd1, hd2⟩ := hv
  unfold nextDay
  by_cases h1 : d.day < daysInMonth d.year d.month
  · rw [if_pos h1]
    unfold Date.Valid
    dsimp only
    exact ⟨hy, hm1, hm2, by omega, h1⟩
  · rw [if_neg h1]
    by_cases h2 : d.month < 12
    · rw [if_pos h2]
      unfold Date.Valid
      dsimp only
      exact ⟨hy, by omega, by omega, Nat.le_refl 1, daysInMonth_pos _ _⟩
    · rw [if_neg h2]
      unfold Date.Valid
      dsimp only
      exact ⟨by omega, by omega, by omega, Nat.le_refl 1, daysInMonth_pos _ _⟩

theorem dateListN_length (a : Date) (n : Nat) : (dateListN a n).length = n := by
  induction n generalizing a with
  | zero => rfl
  | succ n ih => simp [dateListN, ih]

theorem dateListN_valid (a : Date) (n : Nat) (ha : a.Valid) :
    ∀ d ∈ dateListN a n, d.Valid := by
  induction n generalizing a with
  | zero => simp [dateListN]
  | succ n ih =>
    intro d hd
    rcases List.mem_cons.1 hd with rfl | hd
    · exact ha
    · exact ih (nextDay a) (nextDay_valid a ha) d hd

theorem dateListN_map_toDayNo (a : Date) (n : Nat) (ha : a.Valid) :
    (dateListN a n).map toDayNo = List.range' (toDayNo a) n := by
  induction n generalizing a with
  | zero => rfl
  | succ n ih =>
    simp only [dateListN, List.map_cons]
    rw [ih (nextDay a) (nextDay_valid a ha), toDayNo_nextDay a ha]
    rfl

/-- `date_id` of a day, as assigned by `mkDateRow`. -/
def dateIdOf (d : Date) : Nat := d.year * 10000 + d.month * 100 + d.day

theorem mkDateRow_date_id (d : Date) : (mkDateRow d).date_id = dateIdOf d := rfl

theorem dateIdOf_lt_nextDay (d : Date) (hv : d.Valid) :
    dateIdOf d < dateIdOf (nextDay d) := by
  obtain ⟨hy, hm1, hm2, hd1, hd2⟩ := hv
  have h31 := daysInMonth_le_31 d.year d.month
  unfold nextDay dateIdOf
  by_cases h1 : d.day < daysInMonth d.year d.month
  · rw [if_pos h1]; dsimp only; omega
  · rw [if_neg h1]
    by_cases h2 : d.month < 12
    · rw [if_pos h2]; dsimp only; omega
    · rw [if_neg h2]; dsimp only; omega

theorem dateIdOf_le_of_mem (a : Date) (n : Nat) (ha : a.Valid) :
    ∀ b ∈ dateListN a n, dateIdOf a ≤ dateIdOf b := by
  induction n generalizing a with
  | zero => simp [dateListN]
  | succ n ih =>
    intro b hb
    rcases List.mem_cons.1 hb with rfl | hb
    · exact Nat.le_refl _
    · exact Nat.le_trans (Nat.le_of_lt (dateIdOf_lt_nextDay a ha))
        (ih (nextDay a) (nextDay_valid a ha) b hb)

theorem dateListN_pairwise_dateId (a : Date) (n : Nat) (ha : a.Valid) :
    (dateListN a n).Pairwise (fun d1 d2 => dateIdOf d1 < dateIdOf d2) := by
  induction n generalizing a with
  | zero => simp [dateListN]
  | succ n ih =>
    simp only [dateListN]
    refine List.Pairwise.cons ?_ (ih (nextDay a) (nextDay_valid a ha))
    intro b hb
    exact Nat.lt_of_lt_of_le (dateIdOf_lt_nextDay a ha)
      (dateIdOf_le_of_mem (nextDay a) n (nextDay_valid a ha) b hb)

theorem daysBeforeYear_le_toDayNo (d : Date) : daysBeforeYear d.year ≤ toDayNo d := by
  unfold toDayNo; omega

theorem toDayNo_lt_next_year (d : Date) (hv : d.Valid) :
    toDayNo d < daysBeforeYear (d.year + 1) := by
  have hb := month_day_bound d hv
  rw [daysBeforeYear_succ d.year hv.1]
  unfold toDayNo
  by_cases hl : isLeap d.year = true <;> simp [hl] at hb ⊢ <;> omega

theorem year_le_2262 (d : Date) (hv : d.Valid) (h : toDayNo d ≤ tsMaxDN) :
    d.year ≤ 2262 := by
  by_contra hc
  push_neg at hc
  have h1 : daysBeforeYear 2263 ≤ daysBeforeYear d.year :=
    daysBeforeYear_mono (by omega) (by omega)
  have h2 : daysBeforeYear d.year ≤ toDayNo d := daysBeforeYear_le_toDayNo d
  have h3 : tsMaxDN < daysBeforeYear 2263 := by decide
  omega

theorem year_ge_1677 (d : Date) (hv : d.Valid) (h : tsMinDN ≤ toDayNo d) :
    1677 ≤ d.year := by
  by_contra hc
  push_neg at hc
  have h1 : toDayNo d < daysBeforeYear (d.year + 1) := toDayNo_lt_next_year d hv
  have h2 : daysBeforeYear (d.year + 1) ≤ daysBeforeYear 1677 :=
    daysBeforeYear_mono (by omega) (by omega)
  have h3 : daysBeforeYear 1677 ≤ tsMinDN := by decide
  omega

theorem dateIdOf_eight_digits (d : Date) (hv : d.Valid)
    (h1 : 1677 ≤ d.year) (h2 : d.year ≤ 2262) :
    10000000 ≤ dateIdOf d ∧ dateIdOf d ≤ 99999999 := by
  obtain ⟨hy, hm1, hm2, hd1, hd2⟩ := hv
  have h31 := daysInMonth_le_31 d.year d.month
  unfold dateIdOf
  omega

theorem parseDateYMD_valid (s : String) (d : Date) (h : parseDateYMD s = some d) :
    d.Valid := by
  unfold parseDateYMD at h
  split at h
  · split at h
    · dsimp only at h
      split at h
      · rename_i hv
        exact (Option.some_injective _ h) ▸ hv
      · exact absurd h (by simp)
    · exact absurd h (by simp)
  · exact absurd h (by simp)

/-! ### Lemmas about `generate_date_dimension` and the load pipeline -/

theorem generate_ok (ss es : String) (s e : Date)
    (h1 : parseDateYMD ss = some s) (h2 : parseDateYMD es = some e)
    (hb1 : tsMinDN ≤ toDayNo s) (hb2 : toDayNo s ≤ tsMaxDN)
    (hb3 : tsMinDN ≤ toDayNo e) (hb4 : toDayNo e ≤ tsMaxDN) :
    generate_date_dimension ss es = .ok ((date_range s e).map mkDateRow) := by
  unfold generate_date_dimension
  rw [h1, h2]
  dsimp only
  rw [if_pos ⟨hb1, hb2, hb3, hb4⟩]

/-- The fixed date dimension inserted by `load_data_to_db`. -/
def dimFixed : List DateRow := (date_range ⟨2022, 1, 1⟩ ⟨2026, 1, 1⟩).map mkDateRow

theorem generate_fixed :
    generate_date_dimension "2022-01-01" "2026-01-01" = .ok dimFixed := rfl

theorem pairwise_fst_enumFrom {α : Type} (n : Nat) (l : List α) :
    (List.enumFrom n l).Pairwise (fun a b => a.1 < b.1) := by
  induction l generalizing n with
  | nil => simp
  | cons x xs ih =>
    simp only [List.enumFrom]
    refine List.Pairwise.cons ?_ (ih (n + 1))
    intro b hb
    exact Nat.lt_of_lt_of_le (Nat.lt_succ_self n) (List.mem_enumFrom hb).1

theorem pairwise_fst_enum {α : Type} (l : List α) :
    l.enum.Pairwise (fun a b => a.1 < b.1) :=
  pairwise_fst_enumFrom 0 l

theorem enumFrom_filter_map_snd {α : Type} (p : α → Bool) (l : List α) (n : Nat) :
    ((List.enumFrom n l).filter (fun ip => p ip.2)).map Prod.snd = l.filter p := by
  induction l generalizing n with
  | nil => rfl
  | cons x xs ih =>
    simp only [List.enumFrom]
    by_cases hp : p x = true
    · rw [List.filter_cons_of_pos (by simpa using hp), List.filter_cons_of_pos hp]
      simp only [List.map_cons]
      rw [ih (n + 1)]
    · rw [List.filter_cons_of_neg (by simpa using hp), List.filter_cons_of_neg hp]
      exact ih (n + 1)

/-- Inversion of a successful pipeline run: the final store is the sales
insertion applied to the store holding the fixed date dimension and the two
normalized dimension tables. -/
theorem load_ok_shape (t : Bool) (c p : List (String × String)) (s : List RawSale)
    (db db' : DB) (h : load_data_to_db t c p s db = .ok db') :
    ∃ sdf, norm_sales s = .ok sdf ∧
      db' = insert_sales sdf ⟨dimFixed, norm_customers c, norm_products p, []⟩ := by
  unfold load_data_to_db at h
  rw [generate_fixed] at h
  simp only [create_schema, delete_existing_records, insert_dim_date, insert_customers,
    insert_products, ite_self, List.nil_append] at h
  cases hn : norm_sales s with
  | error e => rw [hn] at h; exact absurd h (by simp)
  | ok sdf =>
    rw [hn] at h
    exact ⟨sdf, rfl, ((Except.ok.injEq _ _).mp h).symm⟩

instance {ε α : Type} [DecidableEq ε] [DecidableEq α] : DecidableEq (Except ε α) :=
  fun a b =>
    match a, b with
    | .ok x, .ok y =>
      if h : x = y then isTrue (by rw [h]) else isFalse (by intro hc; injection hc; exact h (by assumption))
    | .error x, .error y =>
      if h : x = y then isTrue (by rw [h]) else isFalse (by intro hc; injection hc; exact h (by assumption))
    | .ok _, .error _ => isFalse (by intro hc; cases hc)
    | .error _, .ok _ => isFalse (by intro hc; cases hc)

/-- The spec-side anchored code pattern `^<marker><digits>$` (this definition
follows the spec's words, for comparison with the source-side extractor). -/
def specFullMatchB (pu pl : Char) (s : String) : Bool :=
  match (strTrim s).data with
  | c :: ds => (c == pu || c == pl) && !ds.isEmpty && ds.all Char.isDigit
  | [] => false

theorem custRowFn_map_fst (r : String × String) :
    (custRowFn r).map Prod.fst = custKeyOf r := by
  unfold custRowFn
  cases custKeyOf r <;> rfl

theorem prodRowFn_map_fst (r : String × String) :
    (prodRowFn r).map Prod.fst = prodKeyOf r := by
  unfold prodRowFn
  cases prodKeyOf r <;> rfl

/-- The non-`sales_id` payload of a parsed sales row, as materialized by
`mkSaleRow`. -/
def saleCoreP (p : ParsedSale) : Nat × Nat × Option ℚ × String × ℚ × Option ℚ :=
  (p.customer_segmentid.getD 0, p.product_id.getD 0, p.units_sold, p.sale_date,
   p.sale_amount.getD 0, p.profit_margin)

/-- The non-`sales_id` fields of a loaded sales row. -/
def saleCore (r : SaleRow) : Nat × Nat × Option ℚ × String × ℚ × Option ℚ :=
  (r.customer_segmentid, r.product_id, r.units_sold, r.sale_date, r.sale_amount, r.profit_margin)

/-- Row-level survivor transform of `norm_sales`: the payload of the row when
it survives `dropna`, `none` when it is dropped. -/
def rawSaleCore (r : RawSale) : Option (Nat × Nat × Option ℚ × String × ℚ × Option ℚ) :=
  if keepSale (parseSale r) then some (saleCoreP (parseSale r)) else none

theorem saleCore_mkSaleRow (i : Nat) (p : ParsedSale) :
    saleCore (mkSaleRow i p) = saleCoreP p := rfl

theorem filter_map_comm {α β γ : Type} (g : α → β) (p : β → Bool) (f : β → γ) (l : List α) :
    ((l.map g).filter p).map f =
      l.filterMap (fun a => if p (g a) then some (f (g a)) else none) := by
  induction l with
  | nil => rfl
  | cons a t ih =>
    simp only [List.map_cons]
    by_cases hp : p (g a) = true
    · rw [List.filter_cons_of_pos hp, List.map_cons]
      simp only [List.filterMap_cons, hp, ite_true, if_true]
      rw [ih]
    · rw [List.filter_cons_of_neg hp]
      simp only [List.filterMap_cons, hp, ite_false, if_false, Bool.false_eq_true]
      rw [ih]

/-- The survivor payload sequence of `norm_sales`, shared by both index
branches: kept rows in input order. -/
theorem norm_sales_core (dfs : List RawSale) (rows : List SaleRow)
    (h : norm_sales dfs = .ok rows) :
    rows.map saleCore = dfs.filterMap rawSaleCore := by
  unfold norm_sales at h
  by_cases hb : badCastSales dfs = true
  · rw [if_pos hb] at h; exact absurd h (by simp)
  · rw [if_neg hb] at h
    have hrows := ((Except.ok.injEq _ _).mp h).symm
    subst hrows
    have hkept : ((keptParsed dfs).map Prod.snd).map saleCoreP = dfs.filterMap rawSaleCore := by
      unfold keptParsed
      have henum : (List.enum (dfs.map parseSale)) = List.enumFrom 0 (dfs.map parseSale) := rfl
      rw [henum, enumFrom_filter_map_snd keepSale (dfs.map parseSale) 0]
      rw [filter_map_comm parseSale keepSale saleCoreP dfs]
      unfold rawSaleCore
      rfl
    by_cases hr : salesNeedsReset dfs = true
    · rw [if_pos hr]
      rw [List.map_map]
      calc (List.enum ((keptParsed dfs).map Prod.snd)).map
            (saleCore ∘ fun ip => mkSaleRow (ip.1 + 1) ip.2)
          = (List.enum ((keptParsed dfs).map Prod.snd)).map (saleCoreP ∘ Prod.snd) := by
            exact List.map_congr_left (fun ip _ => rfl)
        _ = (((keptParsed dfs).map Prod.snd).map saleCoreP) := by
            rw [← List.map_map, List.enum_map_snd]
        _ = dfs.filterMap rawSaleCore := hkept
    · rw [if_neg hr]
      rw [List.map_map]
      calc (keptParsed dfs).map (saleCore ∘ fun ip => mkSaleRow (ip.1 + 1) ip.2)
          = (keptParsed dfs).map (saleCoreP ∘ Prod.snd) := by
            exact List.map_congr_left (fun ip _ => rfl)
        _ = (((keptParsed dfs).map Prod.snd).map saleCoreP) := by rw [List.map_map]
        _ = dfs.filterMap rawSaleCore := hkept

/-! ### Claim theorems -/

/-- C2 (counterexample): the claim says a trimmed value that does not match
`<marker><digits>` is absent from the extractor's output.  The value `"xC3"`
does not match the anchored pattern `^[Cc]\d+$` (spec-side `specFullMatchB`),
yet the extractor emits `3` for it (`re.search` semantics), so the row is not
absent. -/
theorem C2_counterexample :
    specFullMatchB 'C' 'c' "xC3" = false ∧ extractKey 'C' 'c' "xC3" = some 3 := by
  decide

/-- C2 (amended): (1) a trimmed value fully matching `^<marker><digits>$`
yields the integer value of the digit substring; (2) the extractor yields a
missing value (and the row is then dropped) exactly when the trimmed value
contains no occurrence of the marker letter immediately followed by a digit;
values containing such an occurrence elsewhere are extracted, not dropped. -/
theorem C2_amended :
    (∀ pu pl s c ds, (strTrim s).data = c :: ds → (c = pu ∨ c = pl) → ds ≠ [] →
       (∀ d ∈ ds, d.isDigit = true) → extractKey pu pl s = some (natOfDigits ds)) ∧
    (∀ pu pl s, extractKey pu pl s = none ↔
       ¬ ∃ l1 c d l2, (strTrim s).data = l1 ++ c :: d :: l2 ∧
         (c = pu ∨ c = pl) ∧ d.isDigit = true) := by
  constructor
  · intro pu pl s c ds h hc hne hdig
    unfold extractKey
    rw [h]
    exact searchPD_fullmatch pu pl c ds hc hne hdig
  · intro pu pl s
    exact searchPD_eq_none_iff pu pl (strTrim s).data

/-- C2 (witness): `" C12 "` extracts to 12; `"X9"` has no C-digit occurrence. -/
theorem C2_witness :
    extractKey 'C' 'c' " C12 " = some (natOfDigits ['1', '2']) ∧
    ¬ ∃ l1 c d l2, (strTrim "X9").data = l1 ++ c :: d :: l2 ∧
      (c = 'C' ∨ c = 'c') ∧ d.isDigit = true := by
  constructor
  · exact C2_amended.1 'C' 'c' " C12 " 'C' ['1', '2'] (by decide) (Or.inl rfl)
      (by decide) (by decide)
  · exact (C2_amended.2 'C' 'c' "X9").mp (by decide)

/-- C4 (counterexample): the claim says every key in the normalized dimension
output is a *positive* integer.  The input code `"C0"` extracts to key `0`,
which is loaded and is not positive. -/
theorem C4_counterexample :
    norm_customers [("C0", "x")] = [(0, "x")] ∧
      ¬ (∀ q ∈ norm_customers [("C0", "x")], 0 < q.1) := by
  refine ⟨by decide, fun h => ?_⟩
  exact absurd (h (0, "x") (by decide)) (by decide)

/-- C4 (amended): every key in the normalized customer/product output comes
from a successful pattern extraction (a nonnegative integer — zero is
possible), no two output rows share a key, and each retained row comes from
the first input row bearing its key (in original input order). -/
theorem C4_amended (dfc dfp : List (String × String)) :
    ((norm_customers dfc).map Prod.fst).Nodup ∧
    (∀ x ∈ norm_customers dfc, ∃ r,
       dfc.find? (fun r => custKeyOf r == some x.1) = some r ∧ custRowFn r = some x) ∧
    ((norm_products dfp).map Prod.fst).Nodup ∧
    (∀ x ∈ norm_products dfp, ∃ r,
       dfp.find? (fun r => prodKeyOf r == some x.1) = some r ∧ prodRowFn r = some x) := by
  refine ⟨drop_dupes_nodup_keys _ _, ?_, drop_dupes_nodup_keys _ _, ?_⟩
  · intro x hx
    have h1 := drop_dupes_find? Prod.fst (dfc.filterMap custRowFn) x hx
    rcases find?_filterMap_nat custRowFn Prod.fst dfc x.1 x h1 with ⟨a, ha, hfa⟩
    refine ⟨a, ?_, hfa⟩
    have hp : (fun r => (custRowFn r).map Prod.fst == some x.1) =
        (fun r => custKeyOf r == some x.1) :=
      funext fun r => by rw [custRowFn_map_fst]
    rw [← hp]
    exact ha
  · intro x hx
    have h1 := drop_dupes_find? Prod.fst (dfp.filterMap prodRowFn) x hx
    rcases find?_filterMap_nat prodRowFn Prod.fst dfp x.1 x h1 with ⟨a, ha, hfa⟩
    refine ⟨a, ?_, hfa⟩
    have hp : (fun r => (prodRowFn r).map Prod.fst == some x.1) =
        (fun r => prodKeyOf r == some x.1) :=
      funext fun r => by rw [prodRowFn_map_fst]
    rw [← hp]
    exact ha

/-- C4 (witness): the spec's own example scenario, plus products. -/
theorem C4_witness :
    ((norm_customers [("c1", "Budget"), ("C1", "Budget-dup"), ("C2", "Premium"),
        ("X9", "bad")]).map Prod.fst).Nodup ∧
    (∃ r, [("c1", "Budget"), ("C1", "Budget-dup"), ("C2", "Premium"),
        ("X9", "bad")].find? (fun r => custKeyOf r == some 1) = some r ∧
      custRowFn r = some (1, "Budget")) ∧
    (∃ r, [("P2", "a"), ("p02", "b")].find? (fun r => prodKeyOf r == some 2) = some r ∧
      prodRowFn r = some (2, "a")) := by
  refine ⟨(C4_amended _ [("P2", "a"), ("p02", "b")]).1, ?_, ?_⟩
  · exact (C4_amended [("c1", "Budget"), ("C1", "Budget-dup"), ("C2", "Premium"),
      ("X9", "bad")] []).2.1 (1, "Budget") (by decide)
  · exact (C4_amended [] [("P2", "a"), ("p02", "b")]).2.2.2 (2, "a") (by decide)

/-- C5 (counterexample): the claim says every entity's normalizer accepts
arbitrary-cased headers.  `norm_products` performs no case normalization, so
product headers `["ProductID", "ProductVariant"]` (case variants of the raw
names) hard-fail instead of being accepted. -/
theorem C5_counterexample :
    norm_products_cols ["ProductID", "ProductVariant"] =
      .error ["product_id", "product_variant"] := by
  decide

/-- C5 (amended): the customer and sales normalizers accept arbitrary-cased,
arbitrary-spaced headers and produce exactly the canonical column set
(unrecognized columns dropped silently); the product normalizer accepts only
the exact raw names `productid`/`productvariant`; for all three, a missing
canonical column after renaming hard-fails with an error listing exactly the
missing canonical names. -/
theorem C5_amended :
    (∀ cols, (∃ a ∈ cols, strLower (strTrim a) = "customersegmentid") →
       (∃ b ∈ cols, strLower (strTrim b) = "customersegment") →
       norm_customers_cols cols = .ok customersRequired) ∧
    (∀ cols, (∀ r ∈ salesRequired, r ∈ rename_headers salesHeaderMap (normalize_headers cols)) →
       norm_sales_cols cols = .ok salesRequired) ∧
    (∀ cols, "productid" ∈ cols → "productvariant" ∈ cols →
       norm_products_cols cols = .ok productsRequired) ∧
    (∀ cols m, norm_customers_cols cols = .error m →
       m ≠ [] ∧ ∀ r ∈ m, r ∈ customersRequired ∧
         r ∉ rename_headers customersHeaderMap (normalize_headers cols)) ∧
    (∀ cols m, norm_products_cols cols = .error m →
       m ≠ [] ∧ ∀ r ∈ m, r ∈ productsRequired ∧ r ∉ rename_headers productsHeaderMap cols) ∧
    (∀ cols m, norm_sales_cols cols = .error m →
       m ≠ [] ∧ ∀ r ∈ m, r ∈ salesRequired ∧
         r ∉ rename_headers salesHeaderMap (normalize_headers cols)) := by
  refine ⟨?_, ?_, ?_, ?_, ?_, ?_⟩
  · intro cols hA hB
    apply select_required_ok
    intro r hr
    rcases hA with ⟨a, haM, haE⟩
    rcases hB with ⟨b, hbM, hbE⟩
    have hr2 : r = "customer_segmentid" ∨ r = "customer_segment" := by
      simpa [customersRequired] using hr
    rcases hr2 with rfl | rfl
    · have h1 : strLower (strTrim a) ∈ normalize_headers cols := List.mem_map_of_mem _ haM
      rw [haE] at h1
      exact List.mem_map.2 ⟨"customersegmentid", h1, by decide⟩
    · have h1 : strLower (strTrim b) ∈ normalize_headers cols := List.mem_map_of_mem _ hbM
      rw [hbE] at h1
      exact List.mem_map.2 ⟨"customersegment", h1, by decide⟩
  · intro cols h
    exact select_required_ok _ _ h
  · intro cols h1 h2
    apply select_required_ok
    intro r hr
    have hr2 : r = "product_id" ∨ r = "product_variant" := by
      simpa [productsRequired] using hr
    rcases hr2 with rfl | rfl
    · exact List.mem_map.2 ⟨"productid", h1, by decide⟩
    · exact List.mem_map.2 ⟨"productvariant", h2, by decide⟩
  · intro cols m h
    have := select_required_error _ _ _ h
    exact ⟨this.2.1, this.2.2⟩
  · intro cols m h
    have := select_required_error _ _ _ h
    exact ⟨this.2.1, this.2.2⟩
  · intro cols m h
    have := select_required_error _ _ _ h
    exact ⟨this.2.1, this.2.2⟩

/-- C5 (witness): concrete header sets for each branch of the amended claim. -/
theorem C5_witness :
    norm_customers_cols [" CustomerSegmentID", "CustomerSegment", "Extra"] =
      .ok customersRequired ∧
    norm_sales_cols ["TransactionID", "CustomerSegmentID", "ProductID", "UnitsSold",
      "Date", "Revenue", "ProfitMargin"] = .ok salesRequired ∧
    norm_products_cols ["productid", "productvariant", "junk"] = .ok productsRequired ∧
    ((["product_id", "product_variant"] : List String) ≠ [] ∧
      ∀ r ∈ (["product_id", "product_variant"] : List String), r ∈ productsRequired ∧
        r ∉ rename_headers productsHeaderMap ["Whatever"]) := by
  refine ⟨?_, ?_, ?_, ?_⟩
  · exact C5_amended.1 _ ⟨" CustomerSegmentID", by decide, by decide⟩
      ⟨"CustomerSegment", by decide, by decide⟩
  · exact C5_amended.2.1 _ (by decide)
  · exact C5_amended.2.2.1 _ (by decide) (by decide)
  · exact C5_amended.2.2.2.2.1 ["Whatever"] _ (by decide)

/-- C10: every normalization is order-stable — the survivors appear in output
in the same relative order as in the input: the customer/product outputs are
sublists of the per-row-transformed input, and the sales output's payload
sequence (keys reassigned) equals the per-row-transformed input survivors in
input order. -/
theorem C10_order_stable :
    (∀ dfc, List.Sublist (norm_customers dfc) (dfc.filterMap custRowFn)) ∧
    (∀ dfp, List.Sublist (norm_products dfp) (dfp.filterMap prodRowFn)) ∧
    (∀ dfs rows, norm_sales dfs = .ok rows → rows.map saleCore = dfs.filterMap rawSaleCore) :=
  ⟨fun _ => drop_dupes_sublist _ _, fun _ => drop_dupes_sublist _ _, norm_sales_core⟩

/-- C10 (witness): concrete instantiation of all three order-stability parts. -/
theorem C10_witness :
    List.Sublist (norm_customers [("c1", "Budget"), ("C1", "dup"), ("X9", "bad")])
      ([("c1", "Budget"), ("C1", "dup"), ("X9", "bad")].filterMap custRowFn) ∧
    List.Sublist (norm_products [("P1", "a"), ("p01", "b")])
      ([("P1", "a"), ("p01", "b")].filterMap prodRowFn) ∧
    ([mkSaleRow 1 (parseSale ⟨"1", "C1", "P1", "1", "2022-01-01", "10", "0.2"⟩),
      mkSaleRow 3 (parseSale ⟨"3", "C1", "P1", "1", "2022-01-01", "10", "0.2"⟩)].map saleCore =
      [(⟨"1", "C1", "P1", "1", "2022-01-01", "10", "0.2"⟩ : RawSale),
       ⟨"2", "X", "P1", "1", "2022-01-01", "10", "0.2"⟩,
       ⟨"3", "C1", "P1", "1", "2022-01-01", "10", "0.2"⟩].filterMap rawSaleCore) := by
  refine ⟨C10_order_stable.1 _, C10_order_stable.2.1 _, ?_⟩
  exact C10_order_stable.2.2 _ _ (by decide)

/-- C6 (counterexample): both bound strings parse as dates and `end < start`,
yet the generator does not fail — `pd.date_range` yields an empty index and
the generator returns an empty table. -/
theorem C6_counterexample :
    parseDateYMD "2023-01-02" = some ⟨2023, 1, 2⟩ ∧
    parseDateYMD "2023-01-01" = some ⟨2023, 1, 1⟩ ∧
    toDayNo ⟨2023, 1, 1⟩ < toDayNo ⟨2023, 1, 2⟩ ∧
    generate_date_dimension "2023-01-02" "2023-01-01" = .ok [] := by
  decide

/-- C6 (amended): the generator fails whenever either date string is not
parseable as `%Y-%m-%d`; when both strings parse (to representable dates) and
`end < start`, it does not fail but returns an empty table (0 rows). -/
theorem C6_amended :
    (∀ ss es, parseDateYMD ss = none → ∃ m, generate_date_dimension ss es = .error m) ∧
    (∀ ss es, parseDateYMD es = none → ∃ m, generate_date_dimension ss es = .error m) ∧
    (∀ ss es s e, parseDateYMD ss = some s → parseDateYMD es = some e →
       tsMinDN ≤ toDayNo s → toDayNo s ≤ tsMaxDN →
       tsMinDN ≤ toDayNo e → toDayNo e ≤ tsMaxDN →
       toDayNo e < toDayNo s → generate_date_dimension ss es = .ok []) := by
  refine ⟨?_, ?_, ?_⟩
  · intro ss es h
    unfold generate_date_dimension
    rw [h]
    exact ⟨_, rfl⟩
  · intro ss es h
    unfold generate_date_dimension
    cases hs : parseDateYMD ss with
    | none => rw [h]; exact ⟨_, rfl⟩
    | some s => rw [h]; exact ⟨_, rfl⟩
  · intro ss es s e h1 h2 hb1 hb2 hb3 hb4 hlt
    unfold generate_date_dimension
    rw [h1, h2]
    dsimp only
    rw [if_pos ⟨hb1, hb2, hb3, hb4⟩]
    have hz : toDayNo e + 1 - toDayNo s = 0 := by omega
    unfold date_range
    rw [hz]
    rfl

/-- C6 (witness): an unparseable start, an unparseable end (month 13), and a
reversed in-range pair. -/
theorem C6_witness :
    (∃ m, generate_date_dimension "garbage" "2023-01-01" = .error m) ∧
    (∃ m, generate_date_dimension "2023-01-01" "2023-13-01" = .error m) ∧
    generate_date_dimension "2023-01-02" "2023-01-01" = .ok [] := by
  refine ⟨C6_amended.1 _ _ (by decide), C6_amended.2.1 _ _ (by decide), ?_⟩
  exact C6_amended.2.2 _ _ ⟨2023, 1, 2⟩ ⟨2023, 1, 1⟩ (by decide) (by decide) (by decide)
    (by decide) (by decide) (by decide) (by decide)

/-- C7 (counterexample): `"0200-01-01" ≤ "0200-01-02"` is a valid pair of
calendar dates, but the generator raises `OutOfBoundsDatetime` (outside the
`pd.Timestamp` range) instead of producing `(end - start).days + 1 = 2` rows. -/
theorem C7_counterexample :
    parseDateYMD "0200-01-01" = some ⟨200, 1, 1⟩ ∧
    parseDateYMD "0200-01-02" = some ⟨200, 1, 2⟩ ∧
    generate_date_dimension "0200-01-01" "0200-01-02" = .error "OutOfBoundsDatetime" := by
  decide

/-- C7 (amended): for parseable dates within the representable day range
1677-09-22..2262-04-11 with `start ≤ end`, the generator succeeds with exactly
`(end - start).days + 1` rows, one row per calendar day of the inclusive range
with consecutive day numbers (no gaps), and the `date_id` values are strictly
increasing 8-digit `YYYYMMDD` integers. -/
theorem C7_amended (ss es : String) (s e : Date)
    (h1 : parseDateYMD ss = some s) (h2 : parseDateYMD es = some e)
    (hb1 : tsMinDN ≤ toDayNo s) (hb2 : toDayNo e ≤ tsMaxDN)
    (hle : toDayNo s ≤ toDayNo e) :
    generate_date_dimension ss es = .ok ((date_range s e).map mkDateRow) ∧
    ((date_range s e).map mkDateRow).length = (toDayNo e - toDayNo s) + 1 ∧
    (date_range s e).map toDayNo = List.range' (toDayNo s) ((toDayNo e - toDayNo s) + 1) ∧
    (((date_range s e).map mkDateRow).map DateRow.date_id).Pairwise (· < ·) ∧
    (∀ r ∈ (date_range s e).map mkDateRow, 10000000 ≤ r.date_id ∧ r.date_id ≤ 99999999) := by
  have hvs : s.Valid := parseDateYMD_valid ss s h1
  have hb2s : toDayNo s ≤ tsMaxDN := le_trans hle hb2
  have hb1e : tsMinDN ≤ toDayNo e := le_trans hb1 hle
  have hcount : toDayNo e + 1 - toDayNo s = (toDayNo e - toDayNo s) + 1 := by omega
  refine ⟨generate_ok ss es s e h1 h2 hb1 hb2s hb1e hb2, ?_, ?_, ?_, ?_⟩
  · rw [List.length_map]
    unfold date_range
    rw [dateListN_length, hcount]
  · unfold date_range
    rw [dateListN_map_toDayNo s _ hvs, hcount]
  · rw [List.pairwise_map, List.pairwise_map]
    unfold date_range
    exact (dateListN_pairwise_dateId s _ hvs).imp
      (fun h => by rw [mkDateRow_date_id, mkDateRow_date_id]; exact h)
  · intro r hr
    rcases List.mem_map.1 hr with ⟨d, hd, rfl⟩
    have hvd : d.Valid := dateListN_valid s _ hvs d hd
    have hmem : toDayNo d ∈ List.range' (toDayNo s) ((toDayNo e - toDayNo s) + 1) := by
      rw [← hcount, ← dateListN_map_toDayNo s _ hvs]
      exact List.mem_map_of_mem _ hd
    have hdn := List.mem_range'_1.1 hmem
    have h1677 := year_ge_1677 d hvd (le_trans hb1 hdn.1)
    have h2262 := year_le_2262 d hvd (by omega)
    rw [mkDateRow_date_id]
    exact dateIdOf_eight_digits d hvd h1677 h2262

/-- C7 (witness): the amended claim at the concrete pair 2022-01-01..2022-01-03. -/
theorem C7_witness :
    generate_date_dimension "2022-01-01" "2022-01-03" =
      .ok ((date_range ⟨2022, 1, 1⟩ ⟨2022, 1, 3⟩).map mkDateRow) ∧
    ((date_range ⟨2022, 1, 1⟩ ⟨2022, 1, 3⟩).map mkDateRow).length =
      (toDayNo ⟨2022, 1, 3⟩ - toDayNo ⟨2022, 1, 1⟩) + 1 ∧
    (date_range ⟨2022, 1, 1⟩ ⟨2022, 1, 3⟩).map toDayNo =
      List.range' (toDayNo ⟨2022, 1, 1⟩) ((toDayNo ⟨2022, 1, 3⟩ - toDayNo ⟨2022, 1, 1⟩) + 1) ∧
    (((date_range ⟨2022, 1, 1⟩ ⟨2022, 1, 3⟩).map mkDateRow).map DateRow.date_id).Pairwise (· < ·) ∧
    (∀ r ∈ (date_range ⟨2022, 1, 1⟩ ⟨2022, 1, 3⟩).map mkDateRow,
      10000000 ≤ r.date_id ∧ r.date_id ≤ 99999999) :=
  C7_amended "2022-01-01" "2022-01-03" ⟨2022, 1, 1⟩ ⟨2022, 1, 3⟩
    (by decide) (by decide) (by decide) (by decide) (by decide)

/-! ### Lemmas about `insert_sales` and the sale-id column -/

theorem insert_sales_sales (df : List SaleRow) (db : DB) :
    (insert_sales df db).sales =
      if 0 < (fkFilter (db.customer.map Prod.fst) (db.product.map Prod.fst) df).length
      then db.sales ++ fkFilter (db.customer.map Prod.fst) (db.product.map Prod.fst) df
      else db.sales := by
  unfold insert_sales
  split <;> rfl

theorem insert_sales_customer (df : List SaleRow) (db : DB) :
    (insert_sales df db).customer = db.customer := by
  unfold insert_sales
  split <;> rfl

theorem insert_sales_product (df : List SaleRow) (db : DB) :
    (insert_sales df db).product = db.product := by
  unfold insert_sales
  split <;> rfl

theorem fkFilter_sublist (vc vp : List Nat) (df : List SaleRow) :
    List.Sublist (fkFilter vc vp df) df :=
  (List.filter_sublist _).trans (List.filter_sublist _)

theorem fkFilter_mem (vc vp : List Nat) (df : List SaleRow) (r : SaleRow)
    (h : r ∈ fkFilter vc vp df) :
    r ∈ df ∧ r.customer_segmentid ∈ vc ∧ r.product_id ∈ vp := by
  unfold fkFilter at h
  have h1 := List.mem_filter.1 h
  have h2 := List.mem_filter.1 h1.1
  exact ⟨h2.1, of_decide_eq_true h2.2, of_decide_eq_true h1.2⟩

theorem norm_sales_ids_pairwise (dfs : List RawSale) (rows : List SaleRow)
    (h : norm_sales dfs = .ok rows) :
    (rows.map SaleRow.sales_id).Pairwise (· < ·) := by
  unfold norm_sales at h
  by_cases hb : badCastSales dfs = true
  · rw [if_pos hb] at h; exact absurd h (by simp)
  · rw [if_neg hb] at h
    have hrows := ((Except.ok.injEq _ _).mp h).symm
    subst hrows
    rw [List.map_map]
    by_cases hr : salesNeedsReset dfs = true
    · rw [if_pos hr, List.pairwise_map]
      exact (pairwise_fst_enum _).imp (fun hab => Nat.succ_lt_succ hab)
    · rw [if_neg hr, List.pairwise_map]
      have hkp : (keptParsed dfs).Pairwise (fun a b => a.1 < b.1) := by
        unfold keptParsed
        exact (pairwise_fst_enum _).filter _
      exact hkp.imp (fun hab => Nat.succ_lt_succ hab)

theorem norm_sales_ids_reset (dfs : List RawSale) (rows : List SaleRow)
    (h : norm_sales dfs = .ok rows) (hr : salesNeedsReset dfs = true) :
    rows.map SaleRow.sales_id = List.range' 1 rows.length := by
  unfold norm_sales at h
  by_cases hb : badCastSales dfs = true
  · rw [if_pos hb] at h; exact absurd h (by simp)
  · rw [if_neg hb] at h
    have hrows := ((Except.ok.injEq _ _).mp h).symm
    subst hrows
    rw [if_pos hr]
    rw [List.map_map, List.length_map]
    have h1 : (((keptParsed dfs).map Prod.snd).enum).map
        (SaleRow.sales_id ∘ fun ip => mkSaleRow (ip.1 + 1) ip.2) =
        (((keptParsed dfs).map Prod.snd).enum).map (fun ip => ip.1 + 1) :=
      List.map_congr_left (fun ip _ => rfl)
    rw [h1, List.enum_length]
    have h2 : (((keptParsed dfs).map Prod.snd).enum).map (fun ip => ip.1 + 1) =
        ((((keptParsed dfs).map Prod.snd).enum).map Prod.fst).map (· + 1) := by
      rw [List.map_map]
      rfl
    rw [h2, List.enum_map_fst, List.range'_eq_map_range]
    exact List.map_congr_left (fun i _ => Nat.add_comm i 1)

/-- C1 (counterexample) input files: unique numeric transaction ids, one row
dropped by `dropna` (bad segment code). -/
def c1CustFile : List (String × String) := [("C1", "Seg")]

def c1ProdFile : List (String × String) := [("P1", "Var")]

def c1SalesFile : List RawSale :=
  [⟨"1", "C1", "P1", "1", "2022-01-01", "10", "0.2"⟩,
   ⟨"2", "X", "P1", "1", "2022-01-01", "10", "0.2"⟩,
   ⟨"3", "C1", "P1", "1", "2022-01-01", "10", "0.2"⟩]

def dbEmpty : DB := ⟨[], [], [], []⟩

def c1Result : DB :=
  (load_data_to_db true c1CustFile c1ProdFile c1SalesFile dbEmpty).toOption.getD dbEmpty

/-- C1 (counterexample): all transaction ids are present and unique, so the
index is not reset; the middle row is dropped by `dropna`, so the two loaded
rows carry `sale_id` values `[1, 3]` — not the dense sequence `1..2` although
two rows survived all filters. -/
theorem C1_counterexample :
    load_data_to_db true c1CustFile c1ProdFile c1SalesFile dbEmpty = .ok c1Result ∧
    c1Result.sales.map SaleRow.sales_id = [1, 3] ∧
    c1Result.sales.length = 2 ∧
    c1Result.sales.map SaleRow.sales_id ≠ List.range' 1 c1Result.sales.length := by
  exact ⟨rfl, by decide, by decide, by decide⟩

/-- C1 (amended): loaded `sale_id` values are always strictly increasing
(hence unique); if the reassignment branch reset the index (some surviving
transactionid missing or duplicated) and the referential filter drops no row,
they form the dense sequence `1..N`.  The original claim's unconditional
density fails: without these conditions gaps are possible (the counterexample
loads ids `[1, 3]` for `N = 2`), though not inevitable. -/
theorem C1_amended (t : Bool) (c p : List (String × String)) (s : List RawSale)
    (db db' : DB) (rows : List SaleRow)
    (h : load_data_to_db t c p s db = .ok db') (hn : norm_sales s = .ok rows) :
    (db'.sales.map SaleRow.sales_id).Pairwise (· < ·) ∧
    (salesNeedsReset s = true →
      fkFilter ((norm_customers c).map Prod.fst) ((norm_products p).map Prod.fst) rows = rows →
      db'.sales.map SaleRow.sales_id = List.range' 1 rows.length) := by
  rcases load_ok_shape t c p s db db' h with ⟨sdf, hsdf, hdb⟩
  rw [hsdf] at hn
  obtain rfl : sdf = rows := (Except.ok.injEq _ _).mp hn
  subst hdb
  rw [insert_sales_sales]
  dsimp only
  constructor
  · by_cases hlen :
      0 < (fkFilter ((norm_customers c).map Prod.fst) ((norm_products p).map Prod.fst) sdf).length
    · rw [if_pos hlen, List.nil_append]
      have hp := norm_sales_ids_pairwise s sdf hsdf
      exact hp.sublist ((fkFilter_sublist _ _ _).map SaleRow.sales_id)
    · rw [if_neg hlen]
      simp
  · intro hreset hkeep
    rw [hkeep]
    cases hrows : sdf with
    | nil => simp
    | cons r rest =>
      rw [← hrows]
      rw [if_pos (by rw [hrows]; exact Nat.succ_pos _), List.nil_append]
      exact norm_sales_ids_reset s sdf hsdf hreset

/-- C1 (witness): duplicated transaction ids trigger the reset and all rows
pass the FK filter, so the loaded ids are exactly `1..2`. -/
def c1wSalesFile : List RawSale :=
  [⟨"7", "C1", "P1", "1", "2022-01-01", "10", "0.2"⟩,
   ⟨"7", "C1", "P1", "2", "2022-01-02", "11", "0.3"⟩]

def c1wResult : DB :=
  (load_data_to_db true c1CustFile c1ProdFile c1wSalesFile dbEmpty).toOption.getD dbEmpty

theorem C1_witness :
    (c1wResult.sales.map SaleRow.sales_id).Pairwise (· < ·) ∧
    c1wResult.sales.map SaleRow.sales_id =
      List.range' 1 [mkSaleRow 1 (parseSale ⟨"7", "C1", "P1", "1", "2022-01-01", "10", "0.2"⟩),
        mkSaleRow 2 (parseSale ⟨"7", "C1", "P1", "2", "2022-01-02", "11", "0.3"⟩)].length := by
  have h := C1_amended true c1CustFile c1ProdFile c1wSalesFile dbEmpty c1wResult
    [mkSaleRow 1 (parseSale ⟨"7", "C1", "P1", "1", "2022-01-01", "10", "0.2"⟩),
     mkSaleRow 2 (parseSale ⟨"7", "C1", "P1", "2", "2022-01-02", "11", "0.3"⟩)]
    rfl (by decide)
  exact ⟨h.1, h.2 (by decide) (by decide)⟩

/-- C3: after a successful load, every loaded sales row's `customer_segmentid`
is a key of the `customer` table and its `product_id` a key of the `product`
table (rows failing the checks were silently dropped); when no fact row
survives the filter, the load still succeeds (warning, not failure) and no
insert occurs — the `sales` table stays empty. -/
theorem C3_referential (t : Bool) (c p : List (String × String)) (s : List RawSale) (db : DB) :
    (∀ db', load_data_to_db t c p s db = .ok db' →
       ∀ r ∈ db'.sales, r.customer_segmentid ∈ db'.customer.map Prod.fst ∧
         r.product_id ∈ db'.product.map Prod.fst) ∧
    (∀ rows, norm_sales s = .ok rows →
       fkFilter ((norm_customers c).map Prod.fst) ((norm_products p).map Prod.fst) rows = [] →
       ∃ db', load_data_to_db t c p s db = .ok db' ∧ db'.sales = []) := by
  constructor
  · intro db' h r hr
    rcases load_ok_shape t c p s db db' h with ⟨sdf, hsdf, hdb⟩
    subst hdb
    rw [insert_sales_customer, insert_sales_product]
    rw [insert_sales_sales] at hr
    dsimp only at hr ⊢
    by_cases hlen :
      0 < (fkFilter ((norm_customers c).map Prod.fst) ((norm_products p).map Prod.fst) sdf).length
    · rw [if_pos hlen, List.nil_append] at hr
      have hm := fkFilter_mem _ _ _ r hr
      exact ⟨hm.2.1, hm.2.2⟩
    · rw [if_neg hlen] at hr
      exact absurd hr (List.not_mem_nil r)
  · intro rows hn hempty
    refine ⟨insert_sales rows ⟨dimFixed, norm_customers c, norm_products p, []⟩, ?_, ?_⟩
    · unfold load_data_to_db
      rw [generate_fixed]
      simp only [create_schema, delete_existing_records, insert_dim_date, insert_customers,
        insert_products, ite_self, List.nil_append]
      rw [hn]
    · rw [insert_sales_sales]
      dsimp only
      rw [hempty]
      simp

/-- C3 (witness): a working load (all FKs valid) and a load whose only fact
row references a missing dimension key (dropped; warning, not failure). -/
def c3SalesFile : List RawSale := [⟨"1", "C2", "P1", "1", "2022-01-01", "10", "0.2"⟩]

theorem C3_witness :
    (∀ r ∈ c1Result.sales, r.customer_segmentid ∈ c1Result.customer.map Prod.fst ∧
      r.product_id ∈ c1Result.product.map Prod.fst) ∧
    (∃ db', load_data_to_db true c1CustFile c1ProdFile c3SalesFile dbEmpty = .ok db' ∧
      db'.sales = []) := by
  constructor
  · exact (C3_referential true c1CustFile c1ProdFile c1SalesFile dbEmpty).1 c1Result rfl
  · exact (C3_referential true c1CustFile c1ProdFile c3SalesFile dbEmpty).2
      [mkSaleRow 1 (parseSale ⟨"1", "C2", "P1", "1", "2022-01-01", "10", "0.2"⟩)]
      (by decide) (by decide)

/-- C8: the pipeline is idempotent — running `load_data_to_db` with
`truncate = true` a second time on the store produced by the first run yields
exactly the store of the first run (identical contents of all four tables,
`sale_id` reassignment included, since the run is deterministic in the input
frames and wipes the store first). -/
theorem C8_idempotent (c p : List (String × String)) (s : List RawSale) (db : DB) :
    Except.bind (load_data_to_db true c p s db) (fun db1 => load_data_to_db true c p s db1) =
      load_data_to_db true c p s db := by
  have hig : ∀ db1 : DB, load_data_to_db true c p s db1 = load_data_to_db true c p s db :=
    fun _ => rfl
  cases h : load_data_to_db true c p s db with
  | error e => rfl
  | ok db1 =>
    show load_data_to_db true c p s db1 = Except.ok db1
    rw [hig db1, h]

/-- C9: the `truncate` flag does not influence the observable result — the
schema is unconditionally dropped and recreated at the start of every run, so
`load(truncate=false)` and `load(truncate=true)` produce identical stores from
any pair of initial stores. -/
theorem C9_truncate_irrelevant (c p : List (String × String)) (s : List RawSale) (db db' : DB) :
    load_data_to_db false c p s db = load_data_to_db true c p s db' := rfl

end EtlToDw
